import Mathlib

/-!
Shallow embedding of the restaurant-ordering backend
(NestJS services over a Prisma/PostgreSQL store).

Data model follows prisma/schema.prisma; the service operations follow the
RestaurantService, MenuService and PurchaseService classes. Monetary values
(Prisma Decimal(10,2) read through toNumber()) are modelled as rationals;
the store is an explicit record of tables and simple autoincrement counters,
and each operation threads the store state. A thrown HTTP exception is
modelled as an error value carrying the store state at the moment of the
throw, so that statements about what a failed request did or did not change
are expressible.
-/

namespace RestaurantBackend

/-- User row, following model User in prisma/schema.prisma (credential and
email fields are irrelevant to the verified operations and omitted). -/
structure User where
  id : Nat
  cashBalance : ℚ
  name : String
  deriving Repr, DecidableEq

/-- Restaurant row, following model Restaurant in prisma/schema.prisma;
ownerId is nullable there, hence an Option. -/
structure Restaurant where
  id : Nat
  cashBalance : ℚ
  openingHours : String
  restaurantName : String
  ownerId : Option Nat
  deriving Repr, DecidableEq

/-- Menu row, following model Menu in prisma/schema.prisma. -/
structure Menu where
  id : Nat
  dishName : String
  price : ℚ
  restaurantId : Nat
  deriving Repr, DecidableEq

/-- PurchaseHistory row, following model PurchaseHistory in
prisma/schema.prisma; the DateTime column is an abstract timestamp. -/
structure PurchaseHistory where
  id : Nat
  transactionDate : Nat
  menuId : Nat
  userId : Nat
  deriving Repr, DecidableEq

/-- The relational store: one list per table plus autoincrement counters for
the ids the verified operations create. -/
structure DB where
  restaurants : List Restaurant
  menus : List Menu
  users : List User
  purchaseHistory : List PurchaseHistory
  nextPurchaseId : Nat
  nextRestaurantId : Nat
  nextMenuId : Nat
  deriving Repr, DecidableEq

/-- HTTP-level outcomes thrown by the services: NotFoundException,
BadRequestException, ConflictException, ForbiddenException, the explicit
402 Payment Required, and the crash that a null dereference would cause. -/
inductive ApiError where
  | notFound
  | badRequest
  | conflict
  | forbidden
  | paymentRequired
  | internalError
  deriving Repr, DecidableEq

/-- findFirst on the menu table by id. -/
def findMenuIn (menus : List Menu) (menuId : Nat) : Option Menu :=
  menus.find? (fun m => m.id == menuId)

/-- model.menu.findFirst with a where id filter. -/
def findMenu (db : DB) (menuId : Nat) : Option Menu :=
  findMenuIn db.menus menuId

/-- model.restaurant.findFirst with a where id filter. -/
def findRestaurant (db : DB) (restaurantId : Nat) : Option Restaurant :=
  db.restaurants.find? (fun r => r.id == restaurantId)

/-- One line item of a purchase request (PurchaseDto item). -/
structure PurchaseItem where
  menuId : Nat
  quantity : Nat
  deriving Repr, DecidableEq

/-- The purchase request body (PurchaseDto). -/
structure PurchaseDto where
  items : List PurchaseItem
  deriving Repr, DecidableEq

/-- The first loop of PurchaseService.purchaseDish: walk the line items
accumulating totalPrice, throwing BadRequestException at the first menu id
that does not resolve. -/
def computeTotalPriceAux (db : DB) : ℚ → List PurchaseItem → Except ApiError ℚ
  | acc, [] => .ok acc
  | acc, item :: rest =>
    match findMenu db item.menuId with
    | none => .error .badRequest
    | some menu => computeTotalPriceAux db (acc + menu.price * (item.quantity : ℚ)) rest

/-- totalPrice as computed by purchaseDish (accumulator starts at 0). -/
def computeTotalPrice (db : DB) (items : List PurchaseItem) : Except ApiError ℚ :=
  computeTotalPriceAux db 0 items

/-- model.restaurant.update setting cashBalance on the row with the given id. -/
def updateRestaurantBalance (db : DB) (restaurantId : Nat) (newBalance : ℚ) : DB :=
  { db with restaurants := db.restaurants.map (fun r =>
      if r.id == restaurantId then { r with cashBalance := newBalance } else r) }

/-- The purchase record purchaseDish inserts for one unit: connected to the
menu and the buyer and stamped with the transaction time. -/
def newPurchaseRow (db : DB) (menu : Menu) (userId tdate : Nat) : PurchaseHistory :=
  { id := db.nextPurchaseId, transactionDate := tdate, menuId := menu.id, userId := userId }

/-- The store right after model.purchaseHistory.create for one unit. -/
def insertPurchaseState (db : DB) (menu : Menu) (userId tdate : Nat) : DB :=
  { db with
    purchaseHistory := db.purchaseHistory ++ [newPurchaseRow db menu userId tdate],
    nextPurchaseId := db.nextPurchaseId + 1 }

/-- One iteration of the inner unit loop of purchaseDish: create the purchase
record connected to the menu and the buyer, then read the owning restaurant
and write back its balance increased by the unit price. The restaurant read
happens after the record insert, so the error state on a missing restaurant
already holds the new record, exactly as a crash in the source would leave it. -/
def processUnit (db : DB) (menu : Menu) (userId tdate : Nat) :
    Except (ApiError × DB) (DB × PurchaseHistory) :=
  let p := newPurchaseRow db menu userId tdate
  let db1 := insertPurchaseState db menu userId tdate
  match findRestaurant db1 menu.restaurantId with
  | none => .error (.internalError, db1)
  | some r =>
    .ok (updateRestaurantBalance db1 menu.restaurantId (r.cashBalance + menu.price), p)

/-- The inner for loop over j in 0 ..< quantity of purchaseDish. -/
def processUnits (menu : Menu) (userId tdate : Nat) :
    DB → Nat → Except (ApiError × DB) (DB × List PurchaseHistory)
  | db, 0 => .ok (db, [])
  | db, q + 1 =>
    match processUnit db menu userId tdate with
    | .error e => .error e
    | .ok (db1, p) =>
      match processUnits menu userId tdate db1 q with
      | .error e => .error e
      | .ok (db2, ps) => .ok (db2, p :: ps)

/-- The outer for loop over the line items of purchaseDish: re-resolve the
menu (a null here would crash in the source, modelled as internalError) and
process each unit of the item. -/
def processItems (userId tdate : Nat) :
    DB → List PurchaseItem → Except (ApiError × DB) (DB × List PurchaseHistory)
  | db, [] => .ok (db, [])
  | db, item :: rest =>
    match findMenu db item.menuId with
    | none => .error (.internalError, db)
    | some menu =>
      match processUnits menu userId tdate db item.quantity with
      | .error e => .error e
      | .ok (db1, ps1) =>
        match processItems userId tdate db1 rest with
        | .error e => .error e
        | .ok (db2, ps2) => .ok (db2, ps1 ++ ps2)

/-- PurchaseService.purchaseDish: compute the total, reject with 402 when the
buyer's balance does not cover it, process every unit, then write the buyer's
balance once as the passed-in balance minus the total (the user row is
addressed by its unique name, exactly as in the source). -/
def purchaseDish (db : DB) (dto : PurchaseDto) (user : User) (tdate : Nat) :
    Except (ApiError × DB) (DB × List PurchaseHistory) :=
  match computeTotalPrice db dto.items with
  | .error e => .error (e, db)
  | .ok totalPrice =>
    if user.cashBalance < totalPrice then .error (.paymentRequired, db)
    else
      match processItems user.id tdate db dto.items with
      | .error e => .error e
      | .ok (db1, purchases) =>
        let newBalance := user.cashBalance - totalPrice
        let db2 : DB := { db1 with users := db1.users.map (fun u =>
            if u.name == user.name then { u with cashBalance := newBalance } else u) }
        .ok (db2, purchases)

/-! Specification-side observations of the store, written from the spec's
vocabulary so the theorems can compare the code against them. -/

/-- Unit price of a menu id (0 when the id does not resolve; only used under
the hypothesis that it does). -/
def unitPriceIn (menus : List Menu) (menuId : Nat) : ℚ :=
  ((findMenuIn menus menuId).map Menu.price).getD 0

/-- The spec's total: the sum over the line items of unit price times quantity. -/
def specTotalPrice (menus : List Menu) : List PurchaseItem → ℚ
  | [] => 0
  | it :: rest => unitPriceIn menus it.menuId * (it.quantity : ℚ) + specTotalPrice menus rest

/-- The spec's credit owed to one restaurant by a request: the sum of unit
price times quantity over the line items whose menu belongs to it. -/
def restaurantCredit (menus : List Menu) (rid : Nat) : List PurchaseItem → ℚ
  | [] => 0
  | it :: rest =>
    (match findMenuIn menus it.menuId with
     | some m => if m.restaurantId = rid then m.price * (it.quantity : ℚ) else 0
     | none => 0) + restaurantCredit menus rid rest

/-- One menu id per purchased unit, in request order: quantity copies of each
line item's menu id. -/
def menuUnits : List PurchaseItem → List Nat
  | [] => []
  | it :: rest => List.replicate it.quantity it.menuId ++ menuUnits rest

/-- Balance of the restaurant row with the given id (0 when absent). -/
def restBal (db : DB) (rid : Nat) : ℚ :=
  ((findRestaurant db rid).map Restaurant.cashBalance).getD 0

/-- Sum of every restaurant balance in the store. -/
def sumRestBal (db : DB) : ℚ :=
  (db.restaurants.map Restaurant.cashBalance).sum

/-- Balance of the user row with the given unique name. -/
def userBalance (db : DB) (name : String) : Option ℚ :=
  (db.users.find? (fun u => u.name == name)).map User.cashBalance

/-- Referential integrity of the menu table: every menu row's restaurantId
resolves (the store's foreign-key constraint). -/
def menusFKOk (db : DB) : Prop :=
  ∀ m ∈ db.menus, (findRestaurant db m.restaurantId).isSome

instance (db : DB) : Decidable (menusFKOk db) :=
  List.decidableBAll _ _

/-- Primary-key integrity of the restaurant table. -/
def restaurantIdsNodup (db : DB) : Prop :=
  (db.restaurants.map Restaurant.id).Nodup

instance (db : DB) : Decidable (restaurantIdsNodup db) :=
  List.nodupDecidable _

/-! Menu and restaurant management (RestaurantService / MenuService). -/

/-- The menu creation and update body (MenuDto). -/
structure MenuDto where
  dishName : String
  price : ℚ
  deriving Repr, DecidableEq

/-- The restaurant creation and update body (RestaurantDto). -/
structure RestaurantDto where
  restaurantName : String
  openingHours : String
  deriving Repr, DecidableEq

/-- MenuService.updateMenuById: resolve the menu (404), resolve its restaurant
and require ownership (403), reject when a menu with the dto's dish name
already exists in the same restaurant (409), otherwise write the dto fields. -/
def updateMenuById (db : DB) (menuId : Nat) (dto : MenuDto) (user : User) :
    Except ApiError (DB × Menu) :=
  match findMenu db menuId with
  | none => .error .notFound
  | some menu =>
    match findRestaurant db menu.restaurantId with
    | none => .error .internalError
    | some restaurant =>
      if restaurant.ownerId ≠ some user.id then .error .forbidden
      else
        match db.menus.find? (fun m =>
            m.dishName == dto.dishName && m.restaurantId == menu.restaurantId) with
        | some _ => .error .conflict
        | none =>
          let updated : Menu := { menu with dishName := dto.dishName, price := dto.price }
          .ok ({ db with menus := db.menus.map (fun m =>
              if m.id == menuId then updated else m) }, updated)

/-- Errors the store reports back to a create call; P2002 is the
unique-constraint violation code the service inspects. -/
inductive PrismaError where
  | p2002
  | other
  deriving Repr, DecidableEq

/-- Store-level restaurant create, following prisma/schema.prisma: a create
raises P2002 exactly when the inserted row violates a unique constraint
declared in the schema, and model Restaurant declares only the autoincrement
primary key id as unique — restaurantName carries no unique attribute — so
the only P2002 this table can produce is an id collision. -/
def prismaCreateRestaurant (db : DB) (cashBalance : ℚ) (ownerId : Option Nat)
    (dto : RestaurantDto) : Except PrismaError (DB × Restaurant) :=
  let r : Restaurant :=
    { id := db.nextRestaurantId, cashBalance := cashBalance,
      openingHours := dto.openingHours, restaurantName := dto.restaurantName,
      ownerId := ownerId }
  if (db.restaurants.map Restaurant.id).contains r.id then .error .p2002
  else .ok ({ db with restaurants := db.restaurants ++ [r],
                      nextRestaurantId := db.nextRestaurantId + 1 }, r)

/-- RestaurantService.createRestaurant: create with balance 0 connected to the
caller, mapping a P2002 from the store to 409 and anything else to 400. -/
def createRestaurant (db : DB) (dto : RestaurantDto) (user : User) :
    Except ApiError (DB × Restaurant) :=
  match prismaCreateRestaurant db 0 (some user.id) dto with
  | .ok res => .ok res
  | .error .p2002 => .error .conflict
  | .error .other => .error .badRequest

/-- RestaurantService.createMenuInRestaurant: resolve the restaurant (404),
require ownership (403), reject a dish name already present in this
restaurant (409), otherwise insert the menu row. -/
def createMenuInRestaurant (db : DB) (restaurantId : Nat) (dto : MenuDto)
    (user : User) : Except ApiError (DB × Menu) :=
  match findRestaurant db restaurantId with
  | none => .error .notFound
  | some inst =>
    if inst.ownerId ≠ some user.id then .error .forbidden
    else
      match db.menus.find? (fun m =>
          m.dishName == dto.dishName && m.restaurantId == restaurantId) with
      | some _ => .error .conflict
      | none =>
        let m : Menu :=
          { id := db.nextMenuId, dishName := dto.dishName,
            price := dto.price, restaurantId := restaurantId }
        .ok ({ db with menus := db.menus ++ [m],
                       nextMenuId := db.nextMenuId + 1 }, m)

/-! Relevance search (RestaurantService.searchRestaurantByRelevance). -/

/-- Query parameters of the search route. -/
structure SearchQuery where
  q : String
  itemsperpage : Option Nat
  page : Option Nat
  deriving Repr, DecidableEq

/-- A findMany include menus row with the relevance attached by the search. -/
structure ScoredRestaurant where
  restaurant : Restaurant
  menus : List Menu
  relevance : ℚ
  deriving Repr, DecidableEq

/-- model.restaurant.findMany with include menus: each restaurant paired with
its menu rows. -/
def restaurantsWithMenus (db : DB) : List (Restaurant × List Menu) :=
  db.restaurants.map (fun r => (r, db.menus.filter (fun m => m.restaurantId == r.id)))

/-- Math.max over the relevance list the source builds: the restaurant-name
score first, then every dish-name score minus the 0.1 penalty. -/
def scoreRestaurant (rel : String → String → ℚ) (q : String)
    (r : Restaurant) (menus : List Menu) : ℚ :=
  (menus.map (fun m => rel q m.dishName - 1/10)).foldl max (rel q r.restaurantName)

/-- The search's scored result list before sorting. -/
def scoredRestaurants (rel : String → String → ℚ) (q : String) (db : DB) :
    List ScoredRestaurant :=
  (restaurantsWithMenus db).map
    (fun rm => ⟨rm.1, rm.2, scoreRestaurant rel q rm.1 rm.2⟩)

/-- Descending order on the attached relevance: the source's comparator
b.relevance − a.relevance. -/
def relDesc (a b : ScoredRestaurant) : Prop := b.relevance ≤ a.relevance

instance : DecidableRel relDesc :=
  fun a b => inferInstanceAs (Decidable (b.relevance ≤ a.relevance))

instance : IsTotal ScoredRestaurant relDesc :=
  ⟨fun a b => le_total b.relevance a.relevance⟩

instance : IsTrans ScoredRestaurant relDesc :=
  ⟨fun _ _ _ h1 h2 => le_trans h2 h1⟩

/-- Modelled from the spec: paginate lives in main.utils, which is not among
the given source files; the spec says the sorted list is sliced "into a page
of a configurable size" defaulting to page 1 of 10 items, so page p of size n
is the n-element block after the first (p − 1) · n elements. -/
def paginate {α : Type} (l : List α) (itemsPerPage page : Nat) : List α :=
  (l.drop ((page - 1) * itemsPerPage)).take itemsPerPage

/-- JavaScript falsiness of the numeric query parameters (the source tests
them with ! and ?:): absent or 0 falls back to the default. -/
def effNat (dflt : Nat) : Option Nat → Nat
  | none => dflt
  | some n => if n = 0 then dflt else n

/-- Same falsiness default for rational-valued parameters. -/
def effQ (dflt : ℚ) : Option ℚ → ℚ
  | none => dflt
  | some x => if x = 0 then dflt else x

/-- RestaurantService.searchRestaurantByRelevance, with the textual relevance
function getRelevance (in main.utils, not among the given source files) as an
abstract parameter: score every restaurant, sort descending by score, then
paginate with defaults 10 items per page and page 1. -/
def searchRestaurantByRelevance (rel : String → String → ℚ)
    (query : SearchQuery) (db : DB) : List ScoredRestaurant :=
  paginate ((scoredRestaurants rel query.q db).insertionSort relDesc)
    (effNat 10 query.itemsperpage) (effNat 1 query.page)

/-! Restaurant listing (RestaurantService.getAllRestaurants). -/

/-- Query parameters of the listing route. -/
structure RestaurantQuery where
  datetime : Option String
  pricelte : Option ℚ
  pricegte : Option ℚ
  dishlte : Option Nat
  dishgte : Option Nat
  sort : Option String
  itemsperpage : Option Nat
  page : Option Nat
  deriving Repr, DecidableEq

/-- The projection the listing returns: id, cashBalance, openingHours,
restaurantName. -/
structure RestaurantSummary where
  id : Nat
  cashBalance : ℚ
  openingHours : String
  restaurantName : String
  deriving Repr, DecidableEq

/-- The projection applied to one restaurant row. -/
def summaryOf (r : Restaurant) : RestaurantSummary :=
  { id := r.id, cashBalance := r.cashBalance, openingHours := r.openingHours,
    restaurantName := r.restaurantName }

/-- How many of the restaurant's dishes lie in the price range. -/
def dishCountInRange (menus : List Menu) (pricegte pricelte : ℚ) : Nat :=
  menus.countP (fun m => pricegte ≤ m.price && m.price ≤ pricelte)

/-- An empty query string: every parameter absent. -/
def emptyRestaurantQuery : RestaurantQuery :=
  { datetime := none, pricelte := none, pricegte := none, dishlte := none,
    dishgte := none, sort := none, itemsperpage := none, page := none }

/-- RestaurantService.getAllRestaurants. The datetime parse (new Date) and
isStoreOpen (in main.utils, not among the given source files) are abstract
parameters, as is the localeCompare order used for the optional alphabetical
sort. With a datetime the open restaurants are kept (an unparsable value is a
400); dishes are counted within the price range (defaults 0 and 999999), the
restaurants whose count lies within dishgte/dishlte (defaults 1 and 10000)
are kept, projected, optionally sorted by name, and paginated with defaults
10 per page and page 1. -/
def selectRestaurants (parseDate : String → Option Nat)
    (isOpen : Nat → String → Bool) (datetime : Option String) (db : DB) :
    Except ApiError (List (Restaurant × List Menu)) :=
  match datetime with
  | some s =>
    match parseDate s with
    | none => .error .badRequest
    | some d => .ok ((restaurantsWithMenus db).filter
        (fun rm => isOpen d rm.1.openingHours))
  | none => .ok (restaurantsWithMenus db)

def getAllRestaurants (parseDate : String → Option Nat)
    (isOpen : Nat → String → Bool) (nameLe : String → String → Bool)
    (query : RestaurantQuery) (db : DB) :
    Except ApiError (List RestaurantSummary) :=
  match selectRestaurants parseDate isOpen query.datetime db with
  | .error e => .error e
  | .ok rs =>
    let pricelte := effQ 999999 query.pricelte
    let pricegte := effQ 0 query.pricegte
    let dishlte := effNat 10000 query.dishlte
    let dishgte := effNat 1 query.dishgte
    let withCounts := rs.map (fun rm => (rm.1, dishCountInRange rm.2 pricegte pricelte))
    let filtered := withCounts.filter (fun rc => dishgte ≤ rc.2 && rc.2 ≤ dishlte)
    let summaries := filtered.map (fun rc => summaryOf rc.1)
    let sortAlphabetically := match query.sort with
      | none => false
      | some s => s == "true"
    let sorted := if sortAlphabetically
      then summaries.insertionSort
        (fun a b => nameLe a.restaurantName b.restaurantName = true)
      else summaries
    .ok (paginate sorted (effNat 10 query.itemsperpage) (effNat 1 query.page))

/-! Concrete fixtures used by the witnesses. -/

/-- A buyer. -/
def exBuyer : User := { id := 1, cashBalance := 100, name := "alice" }

/-- The owner of the first restaurant. -/
def exOwner : User := { id := 2, cashBalance := 50, name := "bob" }

/-- A restaurant owned by exOwner. -/
def exRest1 : Restaurant :=
  { id := 1, cashBalance := 0, openingHours := "Mon - Sun 8 am - 10 pm",
    restaurantName := "Pasta Place", ownerId := some 2 }

/-- A second restaurant. -/
def exRest2 : Restaurant :=
  { id := 2, cashBalance := 5, openingHours := "Mon - Sun 8 am - 10 pm",
    restaurantName := "Burger Barn", ownerId := some 3 }

/-- A dish of the first restaurant. -/
def exMenu1 : Menu :=
  { id := 1, dishName := "Carbonara", price := 10, restaurantId := 1 }

/-- A dish of the second restaurant. -/
def exMenu2 : Menu :=
  { id := 2, dishName := "Cheeseburger", price := 7, restaurantId := 2 }

/-- A small concrete store. -/
def exDB : DB :=
  { restaurants := [exRest1, exRest2], menus := [exMenu1, exMenu2],
    users := [exBuyer, exOwner], purchaseHistory := [], nextPurchaseId := 1,
    nextRestaurantId := 3, nextMenuId := 3 }

/-- A concrete purchase request: two Carbonara, one Cheeseburger. -/
def exDto : PurchaseDto :=
  { items := [{ menuId := 1, quantity := 2 }, { menuId := 2, quantity := 1 }] }

/-! Generic list helpers. -/

/-- find? commutes with a map that does not change the predicate. -/
theorem find?_map_pred {α : Type} (g : α → α) (p : α → Bool)
    (hg : ∀ x, p (g x) = p x) (l : List α) :
    (l.map g).find? p = (l.find? p).map g := by
  have hpg : p ∘ g = p := funext hg
  rw [List.find?_map, hpg]

/-- A row is present exactly when its id appears in the id column. -/
theorem findRestaurant_isSome_iff (db : DB) (rid : Nat) :
    (findRestaurant db rid).isSome ↔ rid ∈ db.restaurants.map Restaurant.id := by
  unfold findRestaurant
  rw [List.find?_isSome]
  constructor
  · rintro ⟨r, hr, hpr⟩
    exact List.mem_map.mpr ⟨r, hr, by simpa using hpr⟩
  · intro h
    obtain ⟨r, hr, hid⟩ := List.mem_map.mp h
    exact ⟨r, hr, by simp [hid]⟩

/-- Updating one restaurant balance rewrites lookups pointwise. -/
theorem findRestaurant_update (db : DB) (rid : Nat) (v : ℚ) (rid' : Nat) :
    findRestaurant (updateRestaurantBalance db rid v) rid' =
      (findRestaurant db rid').map
        (fun r => if r.id == rid then { r with cashBalance := v } else r) := by
  unfold findRestaurant updateRestaurantBalance
  exact find?_map_pred _ _
    (fun x => by by_cases h : (x.id == rid) = true <;> simp [h]) _

/-- Effect of one balance write on every observed balance. -/
theorem restBal_update (db : DB) (rid : Nat) (v : ℚ) (r : Restaurant)
    (hfind : findRestaurant db rid = some r) (rid' : Nat) :
    restBal (updateRestaurantBalance db rid v) rid' =
      if rid = rid' then v else restBal db rid' := by
  unfold restBal
  rw [findRestaurant_update]
  by_cases h : rid = rid'
  · subst h
    have hfind' : db.restaurants.find? (fun x => x.id == rid) = some r := hfind
    have hid : r.id = rid := by simpa using List.find?_some hfind'
    simp [hfind, hid]
  · cases hf : findRestaurant db rid' with
    | none => simp [h]
    | some r' =>
      have hf' : db.restaurants.find? (fun x => x.id == rid') = some r' := hf
      have hid' : r'.id = rid' := by simpa using List.find?_some hf'
      have hne : ¬ r'.id = rid := by rw [hid']; exact fun hEq => h hEq.symm
      simp [h, hne]

/-- Effect of one balance write on the sum of all balances, under primary-key
integrity. -/
theorem sum_cash_update (rid : Nat) (v : ℚ) (l : List Restaurant) (r : Restaurant)
    (hnd : (l.map Restaurant.id).Nodup)
    (hfind : l.find? (fun x => x.id == rid) = some r) :
    ((l.map (fun x => if x.id == rid then { x with cashBalance := v } else x)).map
      Restaurant.cashBalance).sum
      = (l.map Restaurant.cashBalance).sum - r.cashBalance + v := by
  induction l with
  | nil => simp at hfind
  | cons a t ih =>
    rw [List.map_cons, List.nodup_cons] at hnd
    by_cases h : (a.id == rid) = true
    · rw [@List.find?_cons_of_pos _ (fun x => x.id == rid) a t h] at hfind
      have hra : r = a := by simpa using hfind.symm
      subst hra
      have hta : ∀ x ∈ t,
          (if x.id == rid then { x with cashBalance := v } else x) = x := by
        intro x hx
        have hxid : ¬ x.id = rid := by
          intro hEq
          apply hnd.1
          have haid : r.id = rid := by simpa using h
          rw [haid, ← hEq]
          exact List.mem_map.mpr ⟨x, hx, rfl⟩
        simp [hxid]
      have htt : t.map (fun x => if x.id == rid then { x with cashBalance := v } else x) = t := by
        rw [List.map_congr_left hta]; simp
      simp only [List.map_cons, List.sum_cons, htt]
      rw [if_pos h]
      dsimp only
      ring
    · rw [@List.find?_cons_of_neg _ (fun x => x.id == rid) a t h] at hfind
      have hsum := ih hnd.2 hfind
      simp only [List.map_cons, List.sum_cons, hsum]
      rw [if_neg h]
      ring

/-! Facts about the total-price loop. -/

/-- When every line item resolves, the accumulator loop returns the start value
plus the spec's total. -/
theorem computeTotalPriceAux_ok (db : DB) (items : List PurchaseItem)
    (h : ∀ it ∈ items, (findMenu db it.menuId).isSome) :
    ∀ acc : ℚ, computeTotalPriceAux db acc items = .ok (acc + specTotalPrice db.menus items) := by
  induction items with
  | nil => intro acc; simp [computeTotalPriceAux, specTotalPrice]
  | cons it rest ih =>
    intro acc
    have hit : (findMenu db it.menuId).isSome := h it (by simp)
    obtain ⟨menu, hm⟩ := Option.isSome_iff_exists.mp hit
    have hrest : ∀ x ∈ rest, (findMenu db x.menuId).isSome := fun x hx => h x (by simp [hx])
    unfold computeTotalPriceAux
    rw [hm]
    dsimp only
    rw [ih hrest]
    have hfm : findMenuIn db.menus it.menuId = some menu := hm
    have hspec : specTotalPrice db.menus (it :: rest)
        = menu.price * (it.quantity : ℚ) + specTotalPrice db.menus rest := by
      show unitPriceIn db.menus it.menuId * (it.quantity : ℚ) + specTotalPrice db.menus rest
        = menu.price * (it.quantity : ℚ) + specTotalPrice db.menus rest
      unfold unitPriceIn
      rw [hfm]
      rfl
    rw [hspec]
    congr 1
    ring

/-- The only error the total-price loop produces is the 400 for an unknown id. -/
theorem computeTotalPriceAux_error (db : DB) :
    ∀ (items : List PurchaseItem) (acc : ℚ) (e : ApiError),
      computeTotalPriceAux db acc items = .error e → e = .badRequest := by
  intro items
  induction items with
  | nil => intro acc e h; simp [computeTotalPriceAux] at h
  | cons it rest ih =>
    intro acc e h
    unfold computeTotalPriceAux at h
    cases hm : findMenu db it.menuId with
    | none => rw [hm] at h; exact (by simpa using h : ApiError.badRequest = e).symm
    | some menu => rw [hm] at h; exact ih _ _ h

/-- A successful total means every line item's menu id resolved. -/
theorem computeTotalPriceAux_resolves (db : DB) :
    ∀ (items : List PurchaseItem) (acc t : ℚ),
      computeTotalPriceAux db acc items = .ok t →
      ∀ it ∈ items, (findMenu db it.menuId).isSome := by
  intro items
  induction items with
  | nil => intro acc t _ it hit; simp at hit
  | cons hd rest ih =>
    intro acc t h it hit
    unfold computeTotalPriceAux at h
    cases hm : findMenu db hd.menuId with
    | none => rw [hm] at h; simp at h
    | some menu =>
      rw [hm] at h
      rcases List.mem_cons.mp hit with rfl | hmem
      · simp [hm]
      · exact ih _ _ h it hmem

/-- An unresolved menu id anywhere in the request makes the loop throw the 400. -/
theorem computeTotalPriceAux_unresolved (db : DB) :
    ∀ (items : List PurchaseItem) (acc : ℚ),
      (∃ it ∈ items, findMenu db it.menuId = none) →
      computeTotalPriceAux db acc items = .error .badRequest := by
  intro items
  induction items with
  | nil => intro acc h; simp at h
  | cons hd rest ih =>
    intro acc h
    unfold computeTotalPriceAux
    cases hm : findMenu db hd.menuId with
    | none => rfl
    | some menu =>
      obtain ⟨it, hit, hnone⟩ := h
      rcases List.mem_cons.mp hit with rfl | hmem
      · rw [hm] at hnone; cases hnone
      · exact ih _ ⟨it, hmem, hnone⟩

/-! Facts about one unit of the purchase loop. -/

/-- Inserting a purchase record does not change the restaurant table. -/
theorem findRestaurant_insertPurchaseState (db : DB) (menu : Menu)
    (userId tdate rid : Nat) :
    findRestaurant (insertPurchaseState db menu userId tdate) rid =
      findRestaurant db rid := rfl

/-- A balance write does not change the id column. -/
theorem updateRestaurantBalance_map_id (db : DB) (rid : Nat) (v : ℚ) :
    (updateRestaurantBalance db rid v).restaurants.map Restaurant.id =
      db.restaurants.map Restaurant.id := by
  unfold updateRestaurantBalance
  dsimp only
  rw [List.map_map]
  exact List.map_congr_left (fun x _ => by
    by_cases hx : (x.id == rid) = true <;> simp [Function.comp, hx])

/-- Everything a successful unit step does: the menu, user tables untouched,
restaurant ids untouched, exactly one record appended with the right menu,
buyer and timestamp, and exactly the owning restaurant credited the price. -/
theorem processUnit_ok_spec {db : DB} {menu : Menu} {userId tdate : Nat}
    {db' : DB} {p : PurchaseHistory}
    (h : processUnit db menu userId tdate = .ok (db', p)) :
    db'.menus = db.menus ∧ db'.users = db.users ∧
    db'.restaurants.map Restaurant.id = db.restaurants.map Restaurant.id ∧
    db'.purchaseHistory = db.purchaseHistory ++ [p] ∧
    p.menuId = menu.id ∧ p.userId = userId ∧ p.transactionDate = tdate ∧
    (∀ rid, restBal db' rid = restBal db rid +
      (if menu.restaurantId = rid then menu.price else 0)) := by
  unfold processUnit at h
  dsimp only at h
  rw [findRestaurant_insertPurchaseState] at h
  cases hf : findRestaurant db menu.restaurantId with
  | none => rw [hf] at h; dsimp only at h; cases h
  | some r =>
    rw [hf] at h
    dsimp only at h
    injection h with h1
    injection h1 with hdb hp
    subst hdb
    subst hp
    refine ⟨rfl, rfl, updateRestaurantBalance_map_id _ _ _, rfl, rfl, rfl, rfl, ?_⟩
    intro rid
    have h1 := restBal_update (insertPurchaseState db menu userId tdate)
      menu.restaurantId (r.cashBalance + menu.price) r hf rid
    rw [h1]
    by_cases hr : menu.restaurantId = rid
    · rw [if_pos hr, if_pos hr]
      subst hr
      have hB : restBal db menu.restaurantId = r.cashBalance := by
        unfold restBal
        rw [hf]
        rfl
      rw [hB]
    · rw [if_neg hr, if_neg hr, add_zero]
      rfl

/-- Effect of a successful unit step on the sum of restaurant balances. -/
theorem processUnit_ok_sum {db : DB} {menu : Menu} {userId tdate : Nat}
    {db' : DB} {p : PurchaseHistory}
    (hnd : (db.restaurants.map Restaurant.id).Nodup)
    (h : processUnit db menu userId tdate = .ok (db', p)) :
    sumRestBal db' = sumRestBal db + menu.price := by
  unfold processUnit at h
  dsimp only at h
  rw [findRestaurant_insertPurchaseState] at h
  cases hf : findRestaurant db menu.restaurantId with
  | none => rw [hf] at h; dsimp only at h; cases h
  | some r =>
    rw [hf] at h
    dsimp only at h
    injection h with h1
    injection h1 with hdb hp
    subst hdb
    have hf' : db.restaurants.find? (fun x => x.id == menu.restaurantId) = some r := hf
    have hsum := sum_cash_update menu.restaurantId (r.cashBalance + menu.price)
      db.restaurants r hnd hf'
    show ((db.restaurants.map (fun x =>
      if x.id == menu.restaurantId
      then { x with cashBalance := r.cashBalance + menu.price } else x)).map
        Restaurant.cashBalance).sum = sumRestBal db + menu.price
    rw [hsum]
    unfold sumRestBal
    ring

/-- The only error a unit step produces is the crash on a dangling foreign key. -/
theorem processUnit_error {db : DB} {menu : Menu} {userId tdate : Nat}
    {e : ApiError} {db0 : DB}
    (h : processUnit db menu userId tdate = .error (e, db0)) :
    e = .internalError := by
  unfold processUnit at h
  dsimp only at h
  rw [findRestaurant_insertPurchaseState] at h
  cases hf : findRestaurant db menu.restaurantId with
  | none =>
    rw [hf] at h
    dsimp only at h
    injection h with h1
    exact (congrArg Prod.fst h1).symm
  | some r =>
    rw [hf] at h
    dsimp only at h
    cases h

/-- A unit step succeeds whenever the owning restaurant exists. -/
theorem processUnit_success {db : DB} {menu : Menu} (userId tdate : Nat)
    (h : (findRestaurant db menu.restaurantId).isSome) :
    ∃ out, processUnit db menu userId tdate = .ok out := by
  obtain ⟨r, hr⟩ := Option.isSome_iff_exists.mp h
  have hstep : processUnit db menu userId tdate =
      .ok (updateRestaurantBalance (insertPurchaseState db menu userId tdate)
        menu.restaurantId (r.cashBalance + menu.price),
        newPurchaseRow db menu userId tdate) := by
    unfold processUnit
    dsimp only
    rw [findRestaurant_insertPurchaseState, hr]
  exact ⟨_, hstep⟩

/-! Facts about the inner unit loop. -/

/-- Everything a successful run of the unit loop does. -/
theorem processUnits_ok_spec {menu : Menu} {userId tdate : Nat} :
    ∀ {q : Nat} {db db' : DB} {ps : List PurchaseHistory},
      processUnits menu userId tdate db q = .ok (db', ps) →
      db'.menus = db.menus ∧ db'.users = db.users ∧
      db'.restaurants.map Restaurant.id = db.restaurants.map Restaurant.id ∧
      db'.purchaseHistory = db.purchaseHistory ++ ps ∧
      ps.map PurchaseHistory.menuId = List.replicate q menu.id ∧
      (∀ p ∈ ps, p.userId = userId ∧ p.transactionDate = tdate) ∧
      (∀ rid, restBal db' rid = restBal db rid +
        (q : ℚ) * (if menu.restaurantId = rid then menu.price else 0)) := by
  intro q
  induction q with
  | zero =>
    intro db db' ps h
    unfold processUnits at h
    injection h with h1
    injection h1 with hdb hps
    subst hdb
    subst hps
    exact ⟨rfl, rfl, rfl, by simp, by simp, by simp, fun rid => by simp⟩
  | succ n ih =>
    intro db db' ps h
    unfold processUnits at h
    cases hu : processUnit db menu userId tdate with
    | error e => rw [hu] at h; dsimp only at h; cases h
    | ok out =>
      obtain ⟨db1, p⟩ := out
      rw [hu] at h
      dsimp only at h
      cases hr : processUnits menu userId tdate db1 n with
      | error e => rw [hr] at h; dsimp only at h; cases h
      | ok out2 =>
        obtain ⟨db2, ps2⟩ := out2
        rw [hr] at h
        dsimp only at h
        injection h with h1
        injection h1 with hdb hps
        subst hdb
        subst hps
        obtain ⟨hm1, hu1, hid1, hph1, hpm, hpu, hpt, hb1⟩ := processUnit_ok_spec hu
        obtain ⟨hm2, hu2, hid2, hph2, hmap2, hall2, hb2⟩ := ih hr
        refine ⟨hm2.trans hm1, hu2.trans hu1, hid2.trans hid1, ?_, ?_, ?_, ?_⟩
        · rw [hph2, hph1, List.append_assoc, List.singleton_append]
        · rw [List.map_cons, hmap2, hpm, List.replicate_succ]
        · intro x hx
          rcases List.mem_cons.mp hx with rfl | hx2
          · exact ⟨hpu, hpt⟩
          · exact hall2 x hx2
        · intro rid
          rw [hb2 rid, hb1 rid]
          push_cast
          ring

/-- Effect of the unit loop on the sum of restaurant balances. -/
theorem processUnits_ok_sum {menu : Menu} {userId tdate : Nat} :
    ∀ {q : Nat} {db db' : DB} {ps : List PurchaseHistory},
      (db.restaurants.map Restaurant.id).Nodup →
      processUnits menu userId tdate db q = .ok (db', ps) →
      sumRestBal db' = sumRestBal db + (q : ℚ) * menu.price := by
  intro q
  induction q with
  | zero =>
    intro db db' ps _ h
    unfold processUnits at h
    injection h with h1
    injection h1 with hdb hps
    subst hdb
    simp
  | succ n ih =>
    intro db db' ps hnd h
    unfold processUnits at h
    cases hu : processUnit db menu userId tdate with
    | error e => rw [hu] at h; dsimp only at h; cases h
    | ok out =>
      obtain ⟨db1, p⟩ := out
      rw [hu] at h
      dsimp only at h
      cases hr : processUnits menu userId tdate db1 n with
      | error e => rw [hr] at h; dsimp only at h; cases h
      | ok out2 =>
        obtain ⟨db2, ps2⟩ := out2
        rw [hr] at h
        dsimp only at h
        injection h with h1
        injection h1 with hdb hps
        subst hdb
        obtain ⟨_, _, hid1, _⟩ := processUnit_ok_spec hu
        have hnd1 : (db1.restaurants.map Restaurant.id).Nodup := by
          rw [hid1]; exact hnd
        have hs1 := processUnit_ok_sum hnd hu
        have hs2 := ih hnd1 hr
        rw [hs2, hs1]
        push_cast
        ring

/-- The only error the unit loop produces is the dangling foreign-key crash. -/
theorem processUnits_error {menu : Menu} {userId tdate : Nat} :
    ∀ {q : Nat} {db : DB} {e : ApiError} {db0 : DB},
      processUnits menu userId tdate db q = .error (e, db0) → e = .internalError := by
  intro q
  induction q with
  | zero => intro db e db0 h; unfold processUnits at h; cases h
  | succ n ih =>
    intro db e db0 h
    unfold processUnits at h
    cases hu : processUnit db menu userId tdate with
    | error epair =>
      obtain ⟨e1, dbx⟩ := epair
      rw [hu] at h
      dsimp only at h
      injection h with h1
      injection h1 with he hdbx
      rw [← he]
      exact processUnit_error hu
    | ok out =>
      obtain ⟨db1, p⟩ := out
      rw [hu] at h
      dsimp only at h
      cases hr : processUnits menu userId tdate db1 n with
      | error epair =>
        obtain ⟨e1, dbx⟩ := epair
        rw [hr] at h
        dsimp only at h
        injection h with h1
        injection h1 with he hdbx
        rw [← he]
        exact ih hr
      | ok out2 =>
        obtain ⟨db2, ps2⟩ := out2
        rw [hr] at h
        dsimp only at h
        cases h

/-- The unit loop succeeds whenever the owning restaurant exists. -/
theorem processUnits_success {menu : Menu} {userId tdate : Nat} :
    ∀ (q : Nat) (db : DB),
      (findRestaurant db menu.restaurantId).isSome →
      ∃ out, processUnits menu userId tdate db q = .ok out := by
  intro q
  induction q with
  | zero => intro db _; exact ⟨(db, []), rfl⟩
  | succ n ih =>
    intro db h
    obtain ⟨out1, hout1⟩ := processUnit_success userId tdate h
    obtain ⟨db1, p⟩ := out1
    obtain ⟨_, _, hid1, _⟩ := processUnit_ok_spec hout1
    have h1 : (findRestaurant db1 menu.restaurantId).isSome := by
      rw [findRestaurant_isSome_iff, hid1, ← findRestaurant_isSome_iff]
      exact h
    obtain ⟨out2, hout2⟩ := ih db1 h1
    obtain ⟨db2, ps2⟩ := out2
    refine ⟨(db2, p :: ps2), ?_⟩
    unfold processUnits
    rw [hout1]
    dsimp only
    rw [hout2]

/-! Facts about the outer line-item loop. -/

/-- Everything a successful run of the line-item loop does: it leaves the
menu and user tables and the restaurant ids untouched, appends exactly one
record per purchased unit (in request order, each referencing the buyer, the
unit's menu and the transaction time), and credits every restaurant exactly
the spec's per-restaurant total. -/
theorem processItems_ok_spec {userId tdate : Nat} :
    ∀ {items : List PurchaseItem} {db db' : DB} {ps : List PurchaseHistory},
      processItems userId tdate db items = .ok (db', ps) →
      db'.menus = db.menus ∧ db'.users = db.users ∧
      db'.restaurants.map Restaurant.id = db.restaurants.map Restaurant.id ∧
      db'.purchaseHistory = db.purchaseHistory ++ ps ∧
      ps.map PurchaseHistory.menuId = menuUnits items ∧
      (∀ p ∈ ps, p.userId = userId ∧ p.transactionDate = tdate) ∧
      (∀ rid, restBal db' rid = restBal db rid + restaurantCredit db.menus rid items) := by
  intro items
  induction items with
  | nil =>
    intro db db' ps h
    unfold processItems at h
    injection h with h1
    injection h1 with hdb hps
    subst hdb
    subst hps
    exact ⟨rfl, rfl, rfl, by simp, by simp [menuUnits], by simp,
      fun rid => by simp [restaurantCredit]⟩
  | cons it rest ih =>
    intro db db' ps h
    unfold processItems at h
    cases hm : findMenu db it.menuId with
    | none => rw [hm] at h; dsimp only at h; cases h
    | some menu =>
      rw [hm] at h
      dsimp only at h
      cases hu : processUnits menu userId tdate db it.quantity with
      | error e => rw [hu] at h; dsimp only at h; cases h
      | ok out1 =>
        obtain ⟨db1, ps1⟩ := out1
        rw [hu] at h
        dsimp only at h
        cases hrest : processItems userId tdate db1 rest with
        | error e => rw [hrest] at h; dsimp only at h; cases h
        | ok out2 =>
          obtain ⟨db2, ps2⟩ := out2
          rw [hrest] at h
          dsimp only at h
          injection h with h1
          injection h1 with hdb hps
          subst hdb
          subst hps
          obtain ⟨hm1, hu1, hid1, hph1, hmap1, hall1, hb1⟩ := processUnits_ok_spec hu
          obtain ⟨hm2, hu2, hid2, hph2, hmap2, hall2, hb2⟩ := ih hrest
          have hmid : menu.id = it.menuId := by
            have hm' : db.menus.find? (fun m => m.id == it.menuId) = some menu := hm
            have hq := List.find?_some hm'
            simpa using hq
          refine ⟨hm2.trans hm1, hu2.trans hu1, hid2.trans hid1, ?_, ?_, ?_, ?_⟩
          · rw [hph2, hph1, List.append_assoc]
          · rw [List.map_append, hmap1, hmap2, hmid]
            rfl
          · intro x hx
            rcases List.mem_append.mp hx with hx1 | hx2
            · exact hall1 x hx1
            · exact hall2 x hx2
          · intro rid
            rw [hb2 rid, hb1 rid, hm1]
            have hcred : restaurantCredit db.menus rid (it :: rest)
                = (if menu.restaurantId = rid then menu.price * (it.quantity : ℚ) else 0)
                  + restaurantCredit db.menus rid rest := by
              show (match findMenuIn db.menus it.menuId with
                    | some m => if m.restaurantId = rid then m.price * (it.quantity : ℚ) else 0
                    | none => 0) + restaurantCredit db.menus rid rest = _
              rw [show findMenuIn db.menus it.menuId = some menu from hm]
            rw [hcred]
            by_cases hr : menu.restaurantId = rid
            · rw [if_pos hr, if_pos hr]
              ring
            · rw [if_neg hr, if_neg hr]
              ring

/-- Effect of the line-item loop on the sum of restaurant balances: the sum
grows by exactly the spec's total price. -/
theorem processItems_ok_sum {userId tdate : Nat} :
    ∀ {items : List PurchaseItem} {db db' : DB} {ps : List PurchaseHistory},
      (db.restaurants.map Restaurant.id).Nodup →
      processItems userId tdate db items = .ok (db', ps) →
      sumRestBal db' = sumRestBal db + specTotalPrice db.menus items := by
  intro items
  induction items with
  | nil =>
    intro db db' ps _ h
    unfold processItems at h
    injection h with h1
    injection h1 with hdb hps
    subst hdb
    simp [specTotalPrice]
  | cons it rest ih =>
    intro db db' ps hnd h
    unfold processItems at h
    cases hm : findMenu db it.menuId with
    | none => rw [hm] at h; dsimp only at h; cases h
    | some menu =>
      rw [hm] at h
      dsimp only at h
      cases hu : processUnits menu userId tdate db it.quantity with
      | error e => rw [hu] at h; dsimp only at h; cases h
      | ok out1 =>
        obtain ⟨db1, ps1⟩ := out1
        rw [hu] at h
        dsimp only at h
        cases hrest : processItems userId tdate db1 rest with
        | error e => rw [hrest] at h; dsimp only at h; cases h
        | ok out2 =>
          obtain ⟨db2, ps2⟩ := out2
          rw [hrest] at h
          dsimp only at h
          injection h with h1
          injection h1 with hdb hps
          subst hdb
          obtain ⟨hm1, _, hid1, _⟩ := processUnits_ok_spec hu
          have hnd1 : (db1.restaurants.map Restaurant.id).Nodup := by
            rw [hid1]; exact hnd
          have hs1 := processUnits_ok_sum hnd hu
          have hs2 := ih hnd1 hrest
          rw [hs2, hs1, hm1]
          have hspec : specTotalPrice db.menus (it :: rest)
              = menu.price * (it.quantity : ℚ) + specTotalPrice db.menus rest := by
            show unitPriceIn db.menus it.menuId * (it.quantity : ℚ)
                + specTotalPrice db.menus rest = _
            unfold unitPriceIn
            rw [show findMenuIn db.menus it.menuId = some menu from hm]
            rfl
          rw [hspec]
          ring

/-- The only error the line-item loop produces is the internal crash; in
particular it never throws the 400 or the 402 itself. -/
theorem processItems_error {userId tdate : Nat} :
    ∀ {items : List PurchaseItem} {db : DB} {e : ApiError} {db0 : DB},
      processItems userId tdate db items = .error (e, db0) → e = .internalError := by
  intro items
  induction items with
  | nil => intro db e db0 h; unfold processItems at h; cases h
  | cons it rest ih =>
    intro db e db0 h
    unfold processItems at h
    cases hm : findMenu db it.menuId with
    | none =>
      rw [hm] at h
      dsimp only at h
      injection h with h1
      injection h1 with he hdbx
      exact he.symm
    | some menu =>
      rw [hm] at h
      dsimp only at h
      cases hu : processUnits menu userId tdate db it.quantity with
      | error epair =>
        obtain ⟨e1, dbx⟩ := epair
        rw [hu] at h
        dsimp only at h
        injection h with h1
        injection h1 with he hdbx
        rw [← he]
        exact processUnits_error hu
      | ok out1 =>
        obtain ⟨db1, ps1⟩ := out1
        rw [hu] at h
        dsimp only at h
        cases hrest : processItems userId tdate db1 rest with
        | error epair =>
          obtain ⟨e1, dbx⟩ := epair
          rw [hrest] at h
          dsimp only at h
          injection h with h1
          injection h1 with he hdbx
          rw [← he]
          exact ih hrest
        | ok out2 =>
          obtain ⟨db2, ps2⟩ := out2
          rw [hrest] at h
          dsimp only at h
          cases h

/-- Under referential integrity, the processing loop succeeds whenever every
line item's menu id resolves. -/
theorem processItems_success {userId tdate : Nat} :
    ∀ (items : List PurchaseItem) (db : DB),
      (∀ it ∈ items, (findMenu db it.menuId).isSome) →
      menusFKOk db →
      ∃ out, processItems userId tdate db items = .ok out := by
  intro items
  induction items with
  | nil => intro db _ _; exact ⟨(db, []), rfl⟩
  | cons it rest ih =>
    intro db hres hFK
    obtain ⟨menu, hm⟩ := Option.isSome_iff_exists.mp (hres it (by simp))
    have hmm : menu ∈ db.menus := List.mem_of_find?_eq_some hm
    have hfr : (findRestaurant db menu.restaurantId).isSome := hFK menu hmm
    obtain ⟨out1, hu⟩ := processUnits_success it.quantity db hfr
    obtain ⟨db1, ps1⟩ := out1
    obtain ⟨hm1, _, hid1, _⟩ := processUnits_ok_spec hu
    have hres1 : ∀ x ∈ rest, (findMenu db1 x.menuId).isSome := by
      intro x hx
      have hx' := hres x (by simp [hx])
      unfold findMenu
      rw [hm1]
      exact hx'
    have hFK1 : menusFKOk db1 := by
      intro m hmem
      rw [findRestaurant_isSome_iff, hid1, ← findRestaurant_isSome_iff]
      apply hFK
      rw [← hm1]
      exact hmem
    obtain ⟨out2, hrest⟩ := ih db1 hres1 hFK1
    obtain ⟨db2, ps2⟩ := out2
    refine ⟨(db2, ps1 ++ ps2), ?_⟩
    unfold processItems
    rw [hm]
    dsimp only
    rw [hu]
    dsimp only
    rw [hrest]

/-! Further helpers for the purchase theorems. -/

/-- One menu id per unit: there are as many units as the quantities sum to. -/
theorem menuUnits_length :
    ∀ items : List PurchaseItem,
      (menuUnits items).length = (items.map PurchaseItem.quantity).sum := by
  intro items
  induction items with
  | nil => rfl
  | cons it rest ih =>
    unfold menuUnits
    rw [List.length_append, List.length_replicate, ih, List.map_cons, List.sum_cons]

/-- Rewriting the user table does not change restaurant balances. -/
theorem sumRestBal_users (db : DB) (us : List User) :
    sumRestBal { db with users := us } = sumRestBal db := rfl

/-- Writing the buyer's balance by unique name: afterwards the row with that
name reads the written value. -/
theorem userBalance_set (db : DB) (name : String) (v : ℚ)
    (h : (db.users.find? (fun u => u.name == name)).isSome) :
    userBalance { db with users := db.users.map (fun u =>
      if u.name == name then { u with cashBalance := v } else u) } name = some v := by
  unfold userBalance
  dsimp only
  rw [find?_map_pred (fun u => if u.name == name then { u with cashBalance := v } else u)
    (fun u => u.name == name)
    (fun x => by by_cases hx : (x.name == name) = true <;> simp [hx]) db.users]
  obtain ⟨u, hu⟩ := Option.isSome_iff_exists.mp h
  rw [hu]
  have hn := List.find?_some hu
  show some (User.cashBalance
    (if (u.name == name) = true then { u with cashBalance := v } else u)) = some v
  rw [if_pos hn]

/-- The concrete request's total: 10 · 2 + 7 · 1 = 27. -/
theorem exTotal_eq : specTotalPrice exDB.menus exDto.items = 27 := by
  simp [specTotalPrice, unitPriceIn, findMenuIn, exDB, exDto, exMenu1, exMenu2,
    List.find?]
  norm_num

/-- The total-price loop agrees on the concrete request. -/
theorem exComputeTotal : computeTotalPrice exDB exDto.items = .ok 27 := by
  unfold computeTotalPrice
  rw [computeTotalPriceAux_ok exDB exDto.items (by decide) 0, zero_add,
    exTotal_eq]

/-! The claims about PurchaseService.purchaseDish. -/

/-- C3: for every purchase request whose menu ids all resolve, the total price
computed by purchaseDish equals the sum over the line items of the referenced
menu item's unit price times the line item's quantity. -/
theorem purchaseDish_total_price (db : DB) (items : List PurchaseItem)
    (h : ∀ it ∈ items, (findMenu db it.menuId).isSome) :
    computeTotalPrice db items = .ok (specTotalPrice db.menus items) := by
  unfold computeTotalPrice
  rw [computeTotalPriceAux_ok db items h 0, zero_add]

/-- Witness for C3 at a concrete store and request (total 27). -/
theorem purchaseDish_total_price_witness :
    computeTotalPrice exDB exDto.items = .ok (specTotalPrice exDB.menus exDto.items) :=
  purchaseDish_total_price exDB exDto.items (by decide)

/-- C5: a purchase request containing any unknown menu id fails whole with the
400 bad-request error, and the store it leaves behind is exactly the starting
store: no purchase record, no balance change. -/
theorem purchaseDish_unknown_menu_id (db : DB) (dto : PurchaseDto) (user : User)
    (tdate : Nat) (h : ∃ it ∈ dto.items, findMenu db it.menuId = none) :
    purchaseDish db dto user tdate = .error (.badRequest, db) := by
  unfold purchaseDish computeTotalPrice
  rw [computeTotalPriceAux_unresolved db dto.items 0 h]

/-- Witness for C5: menu id 99 does not exist. -/
theorem purchaseDish_unknown_menu_id_witness :
    purchaseDish exDB { items := [{ menuId := 99, quantity := 1 }] } exBuyer 0
      = .error (.badRequest, exDB) :=
  purchaseDish_unknown_menu_id exDB _ exBuyer 0 (by decide)

/-- C4: when all menu ids resolve (so the total t is computed), purchaseDish
fails with the 402 payment-required signal exactly when the buyer's balance is
strictly below t, and that failure leaves the store exactly as it started. -/
theorem purchaseDish_payment_required_iff (db : DB) (dto : PurchaseDto)
    (user : User) (tdate : Nat) (t : ℚ)
    (hTotal : computeTotalPrice db dto.items = .ok t) :
    (user.cashBalance < t →
      purchaseDish db dto user tdate = .error (.paymentRequired, db)) ∧
    (∀ db0, purchaseDish db dto user tdate = .error (.paymentRequired, db0) →
      user.cashBalance < t ∧ db0 = db) := by
  constructor
  · intro hlt
    unfold purchaseDish
    rw [hTotal]
    dsimp only
    rw [if_pos hlt]
  · intro db0 h
    unfold purchaseDish at h
    rw [hTotal] at h
    dsimp only at h
    by_cases hlt : user.cashBalance < t
    · rw [if_pos hlt] at h
      injection h with h1
      injection h1 with he hdb
      exact ⟨hlt, hdb.symm⟩
    · rw [if_neg hlt] at h
      cases hp : processItems user.id tdate db dto.items with
      | error epair =>
        obtain ⟨e1, dbx⟩ := epair
        rw [hp] at h
        dsimp only at h
        injection h with h1
        injection h1 with he hdbx
        rw [processItems_error hp] at he
        cases he
      | ok out =>
        obtain ⟨db1, ps1⟩ := out
        rw [hp] at h
        dsimp only at h
        cases h

/-- Witness for C4 at the concrete store (total 27). -/
theorem purchaseDish_payment_required_iff_witness :
    (exBuyer.cashBalance < 27 →
      purchaseDish exDB exDto exBuyer 0 = .error (.paymentRequired, exDB)) ∧
    (∀ db0, purchaseDish exDB exDto exBuyer 0 = .error (.paymentRequired, db0) →
      exBuyer.cashBalance < 27 ∧ db0 = exDB) :=
  purchaseDish_payment_required_iff exDB exDto exBuyer 0 27 exComputeTotal

/-- C6: on a successful purchase the buyer's stored balance is written once,
to the balance the request started from minus the computed total. -/
theorem purchaseDish_buyer_debit (db : DB) (dto : PurchaseDto) (user : User)
    (tdate : Nat) (db' : DB) (ps : List PurchaseHistory) (t : ℚ)
    (hTotal : computeTotalPrice db dto.items = .ok t)
    (hUser : userBalance db user.name = some user.cashBalance)
    (hOk : purchaseDish db dto user tdate = .ok (db', ps)) :
    userBalance db' user.name = some (user.cashBalance - t) := by
  unfold purchaseDish at hOk
  rw [hTotal] at hOk
  dsimp only at hOk
  by_cases hlt : user.cashBalance < t
  · rw [if_pos hlt] at hOk
    cases hOk
  · rw [if_neg hlt] at hOk
    cases hp : processItems user.id tdate db dto.items with
    | error epair =>
      rw [hp] at hOk
      dsimp only at hOk
      cases hOk
    | ok out =>
      obtain ⟨db1, ps1⟩ := out
      rw [hp] at hOk
      dsimp only at hOk
      injection hOk with h1
      injection h1 with hdb hps
      subst hdb
      obtain ⟨_, husers, _⟩ := processItems_ok_spec hp
      have hpre : (db1.users.find? (fun u => u.name == user.name)).isSome := by
        rw [husers]
        unfold userBalance at hUser
        cases hf : db.users.find? (fun u => u.name == user.name) with
        | none => rw [hf] at hUser; cases hUser
        | some u0 => simp
      exact userBalance_set db1 user.name (user.cashBalance - t) hpre

/-- Witness for C6: alice starts at 100, the total is 27, and after the
request her stored balance reads 100 − 27. -/
theorem purchaseDish_buyer_debit_witness :
    ∃ db' ps, purchaseDish exDB exDto exBuyer 0 = .ok (db', ps) ∧
      userBalance db' exBuyer.name = some (exBuyer.cashBalance - 27) := by
  have hres : ∀ it ∈ exDto.items, (findMenu exDB it.menuId).isSome := by decide
  obtain ⟨out, hOk0⟩ := processItems_success exDto.items exDB hres (by decide)
  obtain ⟨db1, ps⟩ := out
  have hbal : ¬ exBuyer.cashBalance < (27 : ℚ) := by norm_num [exBuyer]
  have hOk : purchaseDish exDB exDto exBuyer 0 =
      .ok ({ db1 with users := db1.users.map (fun u =>
        if u.name == exBuyer.name
        then { u with cashBalance := exBuyer.cashBalance - 27 }
        else u) }, ps) := by
    unfold purchaseDish
    rw [exComputeTotal]
    dsimp only
    rw [if_neg hbal, hOk0]
  exact ⟨_, ps, hOk, purchaseDish_buyer_debit exDB exDto exBuyer 0 _ ps 27
    exComputeTotal rfl hOk⟩

/-- C2: when every menu id resolves and the balance covers the total, the
purchase succeeds; it creates one record per unit — quantity records per line
item, in request order, each referencing the buyer, the unit's menu item and
the transaction time, all appended to the history — and every restaurant's
balance grows by exactly the sum of unit price times quantity over the line
items that belong to it. -/
theorem purchaseDish_success_effects (db : DB) (dto : PurchaseDto) (user : User)
    (tdate : Nat)
    (hres : ∀ it ∈ dto.items, (findMenu db it.menuId).isSome)
    (hbal : specTotalPrice db.menus dto.items ≤ user.cashBalance)
    (hFK : menusFKOk db) :
    ∃ db' ps, purchaseDish db dto user tdate = .ok (db', ps) ∧
      ps.length = (dto.items.map PurchaseItem.quantity).sum ∧
      ps.map PurchaseHistory.menuId = menuUnits dto.items ∧
      (∀ p ∈ ps, p.userId = user.id ∧ p.transactionDate = tdate) ∧
      db'.purchaseHistory = db.purchaseHistory ++ ps ∧
      (∀ rid, restBal db' rid = restBal db rid +
        restaurantCredit db.menus rid dto.items) := by
  have hTotal : computeTotalPrice db dto.items
      = .ok (specTotalPrice db.menus dto.items) := by
    unfold computeTotalPrice
    rw [computeTotalPriceAux_ok db dto.items hres 0, zero_add]
  obtain ⟨out, hOk⟩ := processItems_success dto.items db hres hFK
  obtain ⟨db1, ps⟩ := out
  obtain ⟨hm1, hu1, hid1, hph1, hmap1, hall1, hb1⟩ := processItems_ok_spec hOk
  refine ⟨{ db1 with users := db1.users.map (fun u =>
      if u.name == user.name
      then { u with cashBalance := user.cashBalance - specTotalPrice db.menus dto.items }
      else u) }, ps, ?_, ?_, ?_, ?_, ?_, ?_⟩
  · unfold purchaseDish
    rw [hTotal]
    dsimp only
    rw [if_neg (not_lt.mpr hbal), hOk]
  · rw [← List.length_map ps PurchaseHistory.menuId, hmap1, menuUnits_length]
  · exact hmap1
  · exact hall1
  · exact hph1
  · intro rid
    exact hb1 rid

/-- Witness for C2 at the concrete store and request. -/
theorem purchaseDish_success_effects_witness :
    ∃ db' ps, purchaseDish exDB exDto exBuyer 0 = .ok (db', ps) ∧
      ps.length = (exDto.items.map PurchaseItem.quantity).sum ∧
      ps.map PurchaseHistory.menuId = menuUnits exDto.items ∧
      (∀ p ∈ ps, p.userId = exBuyer.id ∧ p.transactionDate = 0) ∧
      db'.purchaseHistory = exDB.purchaseHistory ++ ps ∧
      (∀ rid, restBal db' rid = restBal exDB rid +
        restaurantCredit exDB.menus rid exDto.items) :=
  purchaseDish_success_effects exDB exDto exBuyer 0 (by decide)
    (by rw [exTotal_eq]; norm_num [exBuyer]) (by decide)

/-- C1: under the store's integrity constraints (foreign keys resolve, primary
keys are unique, the caller's user object matches its row), a purchase request
either fails — only with the 400 for an unknown menu id or the 402 for an
insufficient balance — leaving the store exactly as it started, or it
completes and the buyer's debit equals the total credited across all
restaurant balances. -/
theorem purchaseDish_all_or_nothing (db : DB) (dto : PurchaseDto) (user : User)
    (tdate : Nat)
    (hFK : menusFKOk db) (hnd : restaurantIdsNodup db)
    (hUser : userBalance db user.name = some user.cashBalance) :
    (∀ e db0, purchaseDish db dto user tdate = .error (e, db0) →
      (e = .badRequest ∨ e = .paymentRequired) ∧ db0 = db) ∧
    (∀ db' ps, purchaseDish db dto user tdate = .ok (db', ps) →
      ∃ b', userBalance db' user.name = some b' ∧
        user.cashBalance - b' = sumRestBal db' - sumRestBal db) := by
  constructor
  · intro e db0 h
    unfold purchaseDish at h
    cases hT : computeTotalPrice db dto.items with
    | error e0 =>
      rw [hT] at h
      dsimp only at h
      injection h with h1
      injection h1 with he hdb
      have he0 : e0 = .badRequest := computeTotalPriceAux_error db dto.items 0 e0 hT
      exact ⟨Or.inl (he ▸ he0), hdb.symm⟩
    | ok t =>
      rw [hT] at h
      dsimp only at h
      by_cases hlt : user.cashBalance < t
      · rw [if_pos hlt] at h
        injection h with h1
        injection h1 with he hdb
        exact ⟨Or.inr he.symm, hdb.symm⟩
      · rw [if_neg hlt] at h
        have hres := computeTotalPriceAux_resolves db dto.items 0 t hT
        obtain ⟨out, hOk⟩ := processItems_success dto.items db hres hFK
        obtain ⟨db1, ps1⟩ := out
        rw [hOk] at h
        dsimp only at h
        cases h
  · intro db' ps h
    unfold purchaseDish at h
    cases hT : computeTotalPrice db dto.items with
    | error e0 =>
      rw [hT] at h
      dsimp only at h
      cases h
    | ok t =>
      rw [hT] at h
      dsimp only at h
      by_cases hlt : user.cashBalance < t
      · rw [if_pos hlt] at h
        cases h
      · rw [if_neg hlt] at h
        cases hp : processItems user.id tdate db dto.items with
        | error ep =>
          rw [hp] at h
          dsimp only at h
          cases h
        | ok out =>
          obtain ⟨db1, ps1⟩ := out
          rw [hp] at h
          dsimp only at h
          injection h with h1
          injection h1 with hdb hps
          subst hdb
          obtain ⟨_, husers, hid1, _⟩ := processItems_ok_spec hp
          have hpre : (db1.users.find? (fun u => u.name == user.name)).isSome := by
            rw [husers]
            unfold userBalance at hUser
            cases hf : db.users.find? (fun u => u.name == user.name) with
            | none => rw [hf] at hUser; cases hUser
            | some u0 => simp
          refine ⟨user.cashBalance - t,
            userBalance_set db1 user.name (user.cashBalance - t) hpre, ?_⟩
          have hres := computeTotalPriceAux_resolves db dto.items 0 t hT
          have hT2 : computeTotalPrice db dto.items
              = .ok (specTotalPrice db.menus dto.items) := by
            unfold computeTotalPrice
            rw [computeTotalPriceAux_ok db dto.items hres 0, zero_add]
          have ht : t = specTotalPrice db.menus dto.items :=
            Except.ok.inj (hT.symm.trans hT2)
          have hsum := processItems_ok_sum hnd hp
          rw [sumRestBal_users, hsum, ← ht]
          ring

/-- Witness for C1 at the concrete store and request. -/
theorem purchaseDish_all_or_nothing_witness :
    (∀ e db0, purchaseDish exDB exDto exBuyer 0 = .error (e, db0) →
      (e = .badRequest ∨ e = .paymentRequired) ∧ db0 = exDB) ∧
    (∀ db' ps, purchaseDish exDB exDto exBuyer 0 = .ok (db', ps) →
      ∃ b', userBalance db' exBuyer.name = some b' ∧
        exBuyer.cashBalance - b' = sumRestBal db' - sumRestBal exDB) :=
  purchaseDish_all_or_nothing exDB exDto exBuyer 0 (by decide) (by decide) rfl

/-! Facts about Math.max over a list (foldl max). -/

/-- The start value never exceeds the running maximum. -/
theorem le_foldl_max : ∀ (l : List ℚ) (init : ℚ), init ≤ l.foldl max init := by
  intro l
  induction l with
  | nil => intro init; exact le_refl _
  | cons a t ih => intro init; exact le_trans (le_max_left init a) (ih (max init a))

/-- No list element exceeds the running maximum. -/
theorem foldl_max_of_mem :
    ∀ (l : List ℚ) (init x : ℚ), x ∈ l → x ≤ l.foldl max init := by
  intro l
  induction l with
  | nil => intro init x hx; simp at hx
  | cons a t ih =>
    intro init x hx
    rcases List.mem_cons.mp hx with rfl | hx2
    · exact le_trans (le_max_right init x) (le_foldl_max t (max init x))
    · exact ih (max init a) x hx2

/-- The running maximum is the start value or one of the elements. -/
theorem foldl_max_cases :
    ∀ (l : List ℚ) (init : ℚ), l.foldl max init = init ∨ l.foldl max init ∈ l := by
  intro l
  induction l with
  | nil => intro init; exact Or.inl rfl
  | cons a t ih =>
    intro init
    rcases ih (max init a) with h | h
    · rcases max_choice init a with hm | hm
      · exact Or.inl (by rw [List.foldl_cons, h, hm])
      · refine Or.inr ?_
        rw [List.foldl_cons, h, hm]
        exact List.mem_cons_self a t
    · exact Or.inr (List.mem_cons.mpr (Or.inr (by rw [List.foldl_cons]; exact h)))

/-- C7: the search returns exactly one page of the list that scores every
restaurant with the maximum of the query's relevance to its name and, for
each of its dishes, the relevance to the dish name minus the 0.1 penalty,
sorted in descending score order; the page defaults are 10 items and page 1. -/
theorem searchRestaurantByRelevance_spec (rel : String → String → ℚ)
    (query : SearchQuery) (db : DB) :
    ∃ L : List ScoredRestaurant,
      List.Perm L (scoredRestaurants rel query.q db) ∧
      L.Pairwise (fun a b => b.relevance ≤ a.relevance) ∧
      (∀ s ∈ L,
        rel query.q s.restaurant.restaurantName ≤ s.relevance ∧
        (∀ m ∈ s.menus, rel query.q m.dishName - 1/10 ≤ s.relevance) ∧
        (s.relevance = rel query.q s.restaurant.restaurantName ∨
          ∃ m ∈ s.menus, s.relevance = rel query.q m.dishName - 1/10)) ∧
      searchRestaurantByRelevance rel query db =
        paginate L (effNat 10 query.itemsperpage) (effNat 1 query.page) ∧
      effNat 10 none = 10 ∧ effNat 1 none = 1 := by
  refine ⟨(scoredRestaurants rel query.q db).insertionSort relDesc,
    List.perm_insertionSort relDesc _, ?_, ?_, rfl, rfl, rfl⟩
  · exact List.sorted_insertionSort relDesc (scoredRestaurants rel query.q db)
  · intro s hs
    have hs2 : s ∈ scoredRestaurants rel query.q db :=
      (List.Perm.mem_iff (List.perm_insertionSort relDesc _)).mp hs
    obtain ⟨rm, _, heq⟩ := List.mem_map.mp hs2
    subst heq
    dsimp only
    refine ⟨le_foldl_max _ _, ?_, ?_⟩
    · intro m hm
      exact foldl_max_of_mem _ _ _ (List.mem_map.mpr ⟨m, hm, rfl⟩)
    · rcases foldl_max_cases (rm.2.map (fun m => rel query.q m.dishName - 1/10))
        (rel query.q rm.1.restaurantName) with h | h
      · exact Or.inl h
      · obtain ⟨m, hm, hmeq⟩ := List.mem_map.mp h
        exact Or.inr ⟨m, hm, hmeq.symm⟩

/-- C9: whenever a menu resolves, its restaurant resolves and the caller is
the owner, updating it with a dto that keeps its current dish name always
fails with the 409 conflict: the duplicate-name lookup matches the very menu
being updated. -/
theorem updateMenuById_same_name_conflict (db : DB) (menuId : Nat)
    (dto : MenuDto) (user : User) (menu : Menu) (r : Restaurant)
    (hMenu : findMenu db menuId = some menu)
    (hName : dto.dishName = menu.dishName)
    (hRest : findRestaurant db menu.restaurantId = some r)
    (hOwner : r.ownerId = some user.id) :
    updateMenuById db menuId dto user = .error .conflict := by
  unfold updateMenuById
  rw [hMenu]
  dsimp only
  rw [hRest]
  dsimp only
  rw [if_neg (show ¬ r.ownerId ≠ some user.id from fun hcon => hcon hOwner)]
  have hMenu' : db.menus.find? (fun m => m.id == menuId) = some menu := hMenu
  have hmem : menu ∈ db.menus := List.mem_of_find?_eq_some hMenu'
  have hsome : (db.menus.find? (fun m =>
      m.dishName == dto.dishName && m.restaurantId == menu.restaurantId)).isSome := by
    rw [List.find?_isSome]
    exact ⟨menu, hmem, by simp [hName]⟩
  obtain ⟨m0, hm0⟩ := Option.isSome_iff_exists.mp hsome
  rw [hm0]

/-- Witness for C9: renaming Carbonara to its own name as the owner. -/
theorem updateMenuById_same_name_conflict_witness :
    updateMenuById exDB 1 { dishName := "Carbonara", price := 12 } exOwner
      = .error .conflict :=
  updateMenuById_same_name_conflict exDB 1
    { dishName := "Carbonara", price := 12 } exOwner exMenu1 exRest1
    rfl rfl rfl rfl

/-- The listing on an empty query, written out: no datetime filter, the
default price window 0 to 999999, the default dish-count window 1 to 10000,
no alphabetical sort, page 1 of 10. -/
theorem getAllRestaurants_empty_eq (parseDate : String → Option Nat)
    (isOpen : Nat → String → Bool) (nameLe : String → String → Bool) (db : DB) :
    getAllRestaurants parseDate isOpen nameLe emptyRestaurantQuery db =
      .ok (paginate ((((restaurantsWithMenus db).map
          (fun rm => (rm.1, dishCountInRange rm.2 (effQ 0 none) (effQ 999999 none)))).filter
          (fun rc => effNat 1 none ≤ rc.2 && rc.2 ≤ effNat 10000 none)).map
          (fun rc => summaryOf rc.1)) (effNat 10 none) (effNat 1 none)) := rfl

/-- C10: called with no query parameters, the listing applies a minimum
dish-count of 1 (the default of the dishgte parameter), so every returned
entry comes from a restaurant that has at least one menu item — a restaurant
with zero menu items never appears. -/
theorem getAllRestaurants_default_excludes_empty (parseDate : String → Option Nat)
    (isOpen : Nat → String → Bool) (nameLe : String → String → Bool) (db : DB) :
    effNat 1 emptyRestaurantQuery.dishgte = 1 ∧
    ∃ l, getAllRestaurants parseDate isOpen nameLe emptyRestaurantQuery db = .ok l ∧
      ∀ x ∈ l, ∃ r ∈ db.restaurants, x = summaryOf r ∧
        db.menus.filter (fun m => m.restaurantId == r.id) ≠ [] := by
  refine ⟨rfl, _, getAllRestaurants_empty_eq parseDate isOpen nameLe db, ?_⟩
  intro x hx
  unfold paginate at hx
  have hx1 := List.drop_subset _ _ (List.take_subset _ _ hx)
  obtain ⟨rc, hrc, hxeq⟩ := List.mem_map.mp hx1
  have hrc2 := List.mem_filter.mp hrc
  obtain ⟨rm, hrm, hrceq⟩ := List.mem_map.mp hrc2.1
  obtain ⟨r, hr, hrmeq⟩ := List.mem_map.mp hrm
  subst hrmeq
  subst hrceq
  have hpred := hrc2.2
  dsimp only at hpred hxeq
  rw [Bool.and_eq_true, decide_eq_true_eq, decide_eq_true_eq] at hpred
  refine ⟨r, hr, hxeq.symm, ?_⟩
  intro hcon
  have hcount := hpred.1
  rw [hcon] at hcount
  simp [dishCountInRange, effNat] at hcount

/-- C8 (failing): schema.prisma declares no unique constraint on
restaurantName, so the store never raises P2002 for a duplicate restaurant
name and createRestaurant happily creates a second "Pasta Place" instead of
the 409 conflict the service's own error handler promises; the per-restaurant
dish-name half of the invariant does hold, as the explicit duplicate check in
createMenuInRestaurant shows at the same store. -/
theorem createRestaurant_duplicate_name_accepted :
    (∃ db' r, createRestaurant exDB
        { restaurantName := "Pasta Place", openingHours := "daily" } exOwner
        = .ok (db', r) ∧
      (db'.restaurants.filter
        (fun x => x.restaurantName == "Pasta Place")).length = 2) ∧
    createMenuInRestaurant exDB 1 { dishName := "Carbonara", price := 12 }
      exOwner = .error .conflict := by
  constructor
  · exact ⟨_, _, rfl, by decide⟩
  · rfl

end RestaurantBackend
